import Mathlib

set_option maxRecDepth 100000

/-!
Verification development for the Talos Principle Archipelago mod's
multiworld state reconciliation engine.

Shallow embedding of:
  - `src/src/ItemMapping.cpp` (item/location tables, sequence resolution),
  - `src/src/headers/ModState.h` (session state),
  - `src/src/APClient.cpp` (the slot-connected reconciliation handler),
  - `src/src/VisibilityManager.cpp` (scan / refresh / enforcement passes and
    the pending-fence-open retry queue),
  - `src/dllmain.cpp` (the per-tick dispatch `on_update`).

World access (Unreal `FindAllOf`, property reads, `ProcessEvent`) is
modelled by passing each pass an explicit snapshot of the live actors it
would discover, and by emitting an explicit effect list in place of the
world mutations.  Floating-point positions are modelled with exact
integers; every theorem below is independent of the numeric outcome of
the proximity comparison.  Logging, HUD notifications and the inventory
TMap synchronisation (which touches no tracked-entity visibility and
emits no location-check report) are omitted.
-/

/- ======================= generic association-list helpers =================
   `std::unordered_map` lookups and insert-or-assign, modelled on
   association lists. -/

/-- Lookup in an association list (models `unordered_map::find`). -/
def assocFind {α β : Type} [DecidableEq α] (k : α) : List (α × β) → Option β
  | [] => none
  | (k2, v) :: rest => if k = k2 then some v else assocFind k rest

/-- Insert-or-assign in an association list (models `map[k] = v`). -/
def assocAssign {α β : Type} [DecidableEq α] (k : α) (v : β) : List (α × β) → List (α × β)
  | [] => [(k, v)]
  | (k2, v2) :: rest => if k = k2 then (k, v) :: rest else (k2, v2) :: assocAssign k v rest

/-- Set insertion (models `unordered_set::insert`: no-op on a member). -/
def setInsert (x : String) (l : List String) : List String :=
  if x ∈ l then l else l ++ [x]

/-- Pointwise update of a counter map
    (models writing through `m_receivedCounts[prefix]`). -/
def updateCount (m : String → Nat) (fam : String) (v : Nat) : String → Nat :=
  fun q => if q = fam then v else m q

/-- The empty counter map: a missing `unordered_map<string,int>` key
    value-initialises to 0. -/
def zeroCounters : String → Nat := fun _ => 0

/- =========================== ItemMapping.cpp ============================= -/

/-- ALL_TETROMINOES from `ItemMapping.cpp` — order matters, location IDs are
    assigned sequentially. -/
def ALL_TETROMINOES : List String :=
  [ "DJ3",  "MT1",  "DZ1",  "DJ2",  "DJ1",  "ML1",  "DI1",
    "ML2",  "DL1",  "DZ2",
    "MT2",  "DZ3",  "NL1",  "MT3",
    "MZ1",  "MZ2",  "MT4",  "MT5",
    "NZ1",  "DI2",  "DT1",  "DT2",  "DL2",
    "DZ4",  "NL2",  "NL3",  "NZ2",
    "NL4",  "DL3",  "NT1",  "NO1",  "DT3",
    "ML3",  "MZ3",  "MS1",  "MT6",  "MT7",
    "NL5",  "MS2",  "MT8",  "MZ4",
    "MT9",  "MJ1",  "NT2",  "NL6",
    "NT3",  "NT4",  "DT4",  "DJ4",  "NL7",  "NL8",
    "NI1",  "NL9",  "NS1",  "DJ5",  "NZ3",
    "NI2",  "MT10", "ML4",
    "NJ1",  "NI3",  "MO1",  "MI1",
    "NZ4",  "NJ2",  "NI4",  "NT5",
    "NZ5",  "NO2",  "NT6",  "NS2",
    "NJ3",  "NO3",  "NZ6",  "NT7",
    "NT8",  "NI5",  "NS3",  "NT9",
    "NI6",  "NO4",  "NO5",  "NT10",
    "NS4",  "NJ4",  "NO6",
    "NT11", "NO7",  "NT12", "NL10" ]

/-- ALL_STARS from `ItemMapping.cpp`: (puzzle code, star ID) pairs; only the
    star IDs enter the location tables. -/
def ALL_STARS : List (String × String) :=
  [ ("SCentralArea_Chapter", "Star5"),
    ("SCloud_1_02",          "Star2"),
    ("S015",                 "Star1"),
    ("SCloud_1_03",          "Star3"),
    ("S202b",                "Star4"),
    ("S201",                 "Star7"),
    ("S244",                 "Star6"),
    ("SCloud_1_06",          "Star8"),
    ("S209",                 "Star9"),
    ("S205",                 "Star10"),
    ("S213",                 "Star11"),
    ("S300a",                "Star12"),
    ("SCloud_2_04",          "Star24"),
    ("S215",                 "Star13"),
    ("SCloud_2_05",          "Star14"),
    ("S301",                 "Star16"),
    ("SCloud_2_07",          "Star15"),
    ("SCloud_3_01",          "Star17"),
    ("SIslands_01",          "Star26"),
    ("SLevel05_Elevator",    "Star25"),
    ("S403",                 "Star18"),
    ("S318",                 "Star19"),
    ("S408",                 "Star21"),
    ("S405",                 "Star20"),
    ("S328",                 "Star23"),
    ("S404",                 "Star27"),
    ("S309",                 "Star22"),
    ("SNexus",               "Star28"),
    ("S234",                 "Star29"),
    ("S308",                 "Star30") ]

/-- Extract the letter family of a tetromino ID (models `ExtractPrefix`,
    e.g. "DJ3" becomes "DJ"). -/
def ExtractPrefixOf (s : String) : String :=
  String.mk (s.toList.takeWhile Char.isAlpha)

/-- Parse the leading decimal digits of a character list (the behaviour of
    `std::stoi` on the all-digit suffixes appearing in the tables). -/
def parseLeadingNat : List Char → Nat → Nat
  | c :: rest, acc =>
    if c.isDigit then parseLeadingNat rest (acc * 10 + (c.toNat - 48)) else acc
  | [], acc => acc

/-- Extract the numeric suffix of a tetromino ID (models `ExtractNumber`,
    e.g. "DJ3" becomes 3; 0 when no digits follow the letters). -/
def ExtractNumber (s : String) : Nat :=
  parseLeadingNat (s.toList.dropWhile Char.isAlpha) 0

/-- The AP item-ID table `m_apItemIdToPrefix` (19 types). -/
def apItemIdTable : List (Int × String) :=
  [ (0x540000, "DJ"), (0x540001, "DZ"), (0x540002, "DI"), (0x540003, "DL"),
    (0x540004, "DT"), (0x540005, "MT"), (0x540006, "ML"), (0x540007, "MZ"),
    (0x540008, "MS"), (0x540009, "MJ"), (0x54000A, "MO"), (0x54000B, "MI"),
    (0x54000C, "NL"), (0x54000D, "NZ"), (0x54000E, "NT"), (0x54000F, "NI"),
    (0x540010, "NJ"), (0x540011, "NO"), (0x540012, "NS") ]

/-- Lookup of `m_apItemIdToPrefix`. -/
def apItemIdToPrefixMap (apItemId : Int) : Option String :=
  assocFind apItemId apItemIdTable

/-- The comparator used to sort each family's sequence
    (`ExtractNumber(a) < ExtractNumber(b)` in `BuildSequences`; stated with
    the reflexive closure, which yields the same unique sorted order since
    numeric suffixes within one family are pairwise distinct). -/
def tetLe (a b : String) : Prop := ExtractNumber a ≤ ExtractNumber b

instance : DecidableRel tetLe := fun a b => Nat.decLe (ExtractNumber a) (ExtractNumber b)

instance : IsTotal String tetLe := ⟨fun a b => Nat.le_total (ExtractNumber a) (ExtractNumber b)⟩

instance : IsTrans String tetLe := ⟨fun _ _ _ h1 h2 => Nat.le_trans h1 h2⟩

/-- `BuildSequences`: group ALL_TETROMINOES by letter family and sort each
    group by embedded number. -/
def tetrominoSequences (fam : String) : List String :=
  List.insertionSort tetLe (ALL_TETROMINOES.filter (fun t => ExtractPrefixOf t = fam))

/-- BASE_LOCATION_ID from `ItemMapping.h`. -/
def BASE_LOCATION_ID : Int := 0x540000

/-- `BuildTables`: sequential location IDs over the tetrominoes followed by
    the stars (entity name, location id) in insertion order. -/
def locationEntries : List (String × Int) :=
  (ALL_TETROMINOES ++ ALL_STARS.map Prod.snd).enum.map
    (fun e => (e.2, BASE_LOCATION_ID + Int.ofNat e.1))

/-- The entity names of the location table. -/
def locationNames : List String := locationEntries.map Prod.fst

/-- The assigned location ids of the location table. -/
def locationIds : List Int := locationEntries.map Prod.snd

/-- `GetLocationId`: name to id, -1 when unknown. -/
def GetLocationId (tetrominoId : String) : Int :=
  (assocFind tetrominoId locationEntries).getD (-1)

/-- The inverse table `m_locationIdToName`, built in the same loop. -/
def locationEntriesById : List (Int × String) :=
  locationEntries.map (fun e => (e.2, e.1))

/-- `GetLocationName`: id to name, "" when unknown. -/
def GetLocationName (locationId : Int) : String :=
  (assocFind locationId locationEntriesById).getD ""

/-- `ResolveNextItem`: look up the family of an AP item id, bump that
    family's received counter, and return the counter-th entity of the
    family's sequence — `none` for an unknown id, a missing/empty sequence,
    or a counter beyond the sequence length.  The counter update is kept in
    the overflow branch exactly as in the source (`++count` happens before
    the bounds check and is not reverted). -/
def ResolveNextItem (m : String → Nat) (apItemId : Int) :
    Option String × (String → Nat) :=
  match apItemIdToPrefixMap apItemId with
  | none => (none, m)
  | some fam =>
    let seq := tetrominoSequences fam
    if seq = [] then (none, m)
    else
      let count := m fam + 1
      let m2 := updateCount m fam count
      if seq.length < count then (none, m2)
      else (seq.get? (count - 1), m2)

/-- `ResetItemCounters`: clear all received counters. -/
def ResetItemCounters (_ : String → Nat) : String → Nat := zeroCounters

/-- Run a stream of grant events through `ResolveNextItem`, pairing each
    item id with its resolution result. -/
def runStream (m : String → Nat) : List Int → List (Int × Option String)
  | [] => []
  | i :: rest =>
    let r := ResolveNextItem m i
    (i, r.1) :: runStream r.2 rest

/-- The counter map after running a stream of grant events. -/
def runCounters (m : String → Nat) : List Int → (String → Nat)
  | [] => m
  | i :: rest => runCounters (ResolveNextItem m i).2 rest

/-- Number of grants of a given family in a stream. -/
def countFor (fam : String) : List Int → Nat
  | [] => 0
  | i :: rest => (if apItemIdToPrefixMap i = some fam then 1 else 0) + countFor fam rest

/-- The successful resolutions belonging to one family, in stream order. -/
def grantsFor (fam : String) : List (Int × Option String) → List String
  | [] => []
  | (i, r) :: rest =>
    if apItemIdToPrefixMap i = some fam then
      match r with
      | some tid => tid :: grantsFor fam rest
      | none => grantsFor fam rest
    else grantsFor fam rest

/-- The entity sequence a grant stream resolves for one family, starting
    from freshly reset counters. -/
def successesFor (fam : String) (l : List Int) : List String :=
  grantsFor fam (runStream zeroCounters l)

/- ============================== ModState.h ==============================
   The fields of ModState that the reconciliation and enforcement logic
   reads and writes.  The unordered sets are modelled as lists with set
   semantics (insertion is a no-op on members). -/

/-- ModState from `ModState.h`, restricted to the session-state fields the
    core logic uses (UObject caches, debug flags and the pending queues are
    outside this embedding). -/
structure ModState where
  GrantedItems : List String := []
  CheckedLocations : List String := []
  APSynced : Bool := false
  ReusableTetrominos : Bool := false
  NeedsTetrominoScan : Bool := true
  LevelTransitionCooldown : Nat := 30
deriving DecidableEq

/-- `ModState::MarkLocationChecked`. -/
def ModState.MarkLocationChecked (st : ModState) (tetrominoId : String) : ModState :=
  { st with CheckedLocations := setInsert tetrominoId st.CheckedLocations }

/-- `ModState::IsLocationChecked`. -/
def ModState.IsLocationChecked (st : ModState) (tetrominoId : String) : Bool :=
  decide (tetrominoId ∈ st.CheckedLocations)

/-- `ModState::IsGranted`. -/
def ModState.IsGranted (st : ModState) (tetrominoId : String) : Bool :=
  decide (tetrominoId ∈ st.GrantedItems)

/-- `ModState::ShouldBeCollectable`: true iff the location has not been
    checked. -/
def ModState.ShouldBeCollectable (st : ModState) (tetrominoId : String) : Bool :=
  !(st.IsLocationChecked tetrominoId)

/- =========================== APClient.cpp ================================
   The slot-connected handler (`set_slot_connected_handler`), which is the
   reconnect reconciliation point.  The network library is a collaborator:
   the server's authoritative checked-location set and the slot-data
   setting arrive as explicit inputs, and the single outbound
   `LocationChecks(toSend)` batch is returned explicitly. -/

/-- Restore step of the slot-connected handler: for every server-checked
    location id that resolves to a known entity name, mark it checked. -/
def restoreChecked : List Int → List String → List String
  | [], checked => checked
  | locId :: rest, checked =>
    let tetId := GetLocationName locId
    if tetId = "" then restoreChecked rest checked
    else restoreChecked rest (setInsert tetId checked)

/-- Local-ahead step of the slot-connected handler: collect the location
    ids of locally checked entities the server does not know about. -/
def computeToSend (serverChecked : List Int) (checked : List String) : List Int :=
  checked.filterMap (fun tetId =>
    let locId := GetLocationId tetId
    if 0 ≤ locId ∧ locId ∉ serverChecked then some locId else none)

/-- The slot-connected handler: reset the item counters, clear the granted
    set, restore the server's checked locations, compute the one outbound
    local-ahead report batch, apply the slot-data setting, and flip
    `APSynced`.  Returns the new mod state, the new counter map, and the
    outbound `LocationChecks` batch. -/
def onSlotConnected (st : ModState) (counters : String → Nat)
    (serverChecked : List Int) (reusableSetting : Option Int) :
    ModState × (String → Nat) × List Int :=
  let counters2 := ResetItemCounters counters
  let checked2 := restoreChecked serverChecked st.CheckedLocations
  let toSend := computeToSend serverChecked checked2
  let reusable := match reusableSetting with
    | some r => decide (r ≠ 0)
    | none => st.ReusableTetrominos
  ({ st with GrantedItems := [],
             CheckedLocations := checked2,
             ReusableTetrominos := reusable,
             APSynced := true },
   counters2, toSend)

/- ========================= VisibilityManager.cpp ========================= -/

/-- World position, exact-arithmetic model of the float triple. -/
abbrev Pos : Type := Int × Int × Int

/-- Observable world mutations and outbound reports produced by the
    scan / refresh / enforcement passes and the fence retry queue. -/
inductive Effect where
  | setVisible (tetId : String)
  | setHidden (tetId : String)
  | locationCheck (locId : Int)
  | openFence (fenceFullName : String)
deriving DecidableEq

/-- A live actor as one scan of the world discovers it: the
    `InstanceInfo` triple (Type, Shape, Number) when readable, the root
    component position when readable, and the current hidden state. -/
structure LiveActor where
  info : Option (Nat × Nat × Int) := none
  pos : Option Pos := none
  hidden : Bool := false
deriving DecidableEq

/-- `VisibilityManager::TypeToLetter`. -/
def TypeToLetter (t : Nat) : Char :=
  match t with
  | 1 => 'D'
  | 2 => 'M'
  | 4 => 'N'
  | 8 => 'S'
  | 16 => 'E'
  | 32 => 'A'
  | 64 => 'H'
  | _ => '?'

/-- `VisibilityManager::ShapeToLetter`. -/
def ShapeToLetter (s : Nat) : Char :=
  match s with
  | 1 => 'I'
  | 2 => 'J'
  | 4 => 'L'
  | 8 => 'O'
  | 16 => 'S'
  | 32 => 'T'
  | 64 => 'Z'
  | _ => '?'

/-- `VisibilityManager::FormatTetrominoId`: "" when either letter is
    unknown. -/
def FormatTetrominoId (typeVal shapeVal : Nat) (number : Int) : String :=
  let tl := TypeToLetter typeVal
  let sl := ShapeToLetter shapeVal
  if tl = '?' ∨ sl = '?' then ""
  else String.mk [tl, sl] ++ toString number

/-- `VisibilityManager::ReadInstanceInfo`: the read succeeds when the
    property is present and Type, Shape and Number are all non-trivial. -/
def ReadInstanceInfo (actor : LiveActor) : Option (Nat × Nat × Int) :=
  match actor.info with
  | none => none
  | some (t, s, n) => if t ≠ 0 ∧ s ≠ 0 ∧ 0 < n then some (t, s, n) else none

/-- Derived tetromino ID of a live actor; `none` exactly when the scan
    loops skip the actor (unreadable info or unknown letters). -/
def actorTetId (actor : LiveActor) : Option String :=
  match ReadInstanceInfo actor with
  | none => none
  | some (t, s, n) =>
    let tetId := FormatTetrominoId t s n
    if tetId = "" then none else some tetId

/-- `VisibilityManager::IsActorHidden` on the model actor. -/
def IsActorHidden (actor : LiveActor) : Bool := actor.hidden

/-- `TrackedTetromino` from `VisibilityManager.h`, with its field
    defaults. -/
structure TrackedTetromino where
  id : String := ""
  x : Int := 0
  y : Int := 0
  z : Int := 0
  reported : Bool := false
  visRetries : Nat := 0
  hasPosition : Bool := false
deriving DecidableEq

/-- The tracked-tetromino cache `m_tracked` (unordered_map keyed by ID). -/
abbrev Tracked : Type := List (String × TrackedTetromino)

/-- VISIBILITY_RETRY_COUNT from `VisibilityManager.h`. -/
def VISIBILITY_RETRY_COUNT : Nat := 10

/-- PICKUP_RADIUS_SQ (250 squared), as an exact integer. -/
def PICKUP_RADIUS_SQ : Int := 250 * 250

/-- A queued fence-open side effect (`PendingFenceOpen`). -/
structure PendingFenceOpen where
  tetId : String
  fenceFullName : String
  attempts : Nat := 0
deriving DecidableEq

/-- `VisibilityManager::OpenFenceForTetromino`: queue a fence open when the
    fence map knows the tetromino. -/
def OpenFenceForTetromino (fenceMap : List (String × String))
    (q : List PendingFenceOpen) (tetId : String) : List PendingFenceOpen :=
  match assocFind tetId fenceMap with
  | none => q
  | some name => q ++ [{ tetId := tetId, fenceFullName := name, attempts := 0 }]

/-- Result of one `ProcessPendingFenceOpens` call: the (possibly updated)
    cached-UFunction flag, the remaining queue, the fence names whose
    resolution was attempted this call, and the fences actually opened. -/
structure FenceProcResult where
  fnCached : Bool
  queue : List PendingFenceOpen
  attempted : List String
  opened : List String
deriving DecidableEq

/-- Body of the retry loop of `ProcessPendingFenceOpens`: resolve each
    entry's fence by full name; drop it on success, re-queue it with one
    more attempt while under 10, drop it permanently at 10. -/
def fenceLoop (resolve : String → Bool) :
    List PendingFenceOpen → List PendingFenceOpen × List String × List String
  | [] => ([], [], [])
  | e :: rest =>
    let r := fenceLoop resolve rest
    if resolve e.fenceFullName then
      (r.1, e.fenceFullName :: r.2.1, e.fenceFullName :: r.2.2)
    else
      let e2 := { e with attempts := e.attempts + 1 }
      if e2.attempts < 10 then (e2 :: r.1, e.fenceFullName :: r.2.1, r.2.2)
      else (r.1, e.fenceFullName :: r.2.1, r.2.2)

/-- `VisibilityManager::ProcessPendingFenceOpens`.  `fnCached` models the
    cached `m_fnFenceOpen` pointer; `fnFindOk` models whether the
    `StaticFindObject` lookup would succeed this call; `resolve` models
    whether re-discovering a fence by full name succeeds this call.  On an
    empty queue nothing happens; when the Open UFunction cannot be found
    the queue is left untouched for the next call. -/
def ProcessPendingFenceOpens (fnCached : Bool) (fnFindOk : Bool)
    (resolve : String → Bool) (q : List PendingFenceOpen) : FenceProcResult :=
  if q = [] then { fnCached := fnCached, queue := q, attempted := [], opened := [] }
  else
    let fn2 := fnCached || fnFindOk
    if fn2 = false then { fnCached := false, queue := q, attempted := [], opened := [] }
    else
      let r := fenceLoop resolve q
      { fnCached := fn2, queue := r.1, attempted := r.2.1, opened := r.2.2 }

/-- Iterate `ProcessPendingFenceOpens` over successive scheduler calls with
    a fixed resolution oracle, accumulating the attempted resolutions. -/
def processIterN (fnFindOk : Bool) (resolve : String → Bool) :
    Nat → Bool → List PendingFenceOpen → Bool × List PendingFenceOpen × List String
  | 0, c, q => (c, q, [])
  | n + 1, c, q =>
    let r := ProcessPendingFenceOpens c fnFindOk resolve q
    let rest := processIterN fnFindOk resolve n r.fnCached r.queue
    (rest.1, rest.2.1, r.attempted ++ rest.2.2)

/-- Shared visibility application of the scan and refresh loops: show the
    entity (arming `retries` forced-visibility retries) when it should be
    collectable, hide it when its location is checked. -/
def applyVisibilityStep (st : ModState) (tetId : String) (tt : TrackedTetromino)
    (retries : Nat) : TrackedTetromino × List Effect :=
  if st.ShouldBeCollectable tetId then
    ({ tt with visRetries := retries }, [Effect.setVisible tetId])
  else if st.IsLocationChecked tetId then (tt, [Effect.setHidden tetId])
  else (tt, [])

/-- Loop body of `VisibilityManager::ScanLevel`: track every readable
    tetromino actor, applying initial visibility from the session state. -/
def scanGo (st : ModState) : List LiveActor → Tracked → Tracked × List Effect
  | [], acc => (acc, [])
  | a :: rest, acc =>
    match actorTetId a with
    | none => scanGo st rest acc
    | some tetId =>
      let p := a.pos.getD (0, 0, 0)
      let tt : TrackedTetromino :=
        { id := tetId, x := p.1, y := p.2.1, z := p.2.2, hasPosition := a.pos.isSome }
      let step := applyVisibilityStep st tetId tt VISIBILITY_RETRY_COUNT
      let r := scanGo st rest (assocAssign tetId step.1 acc)
      (r.1, step.2 ++ r.2)

/-- `VisibilityManager::ScanLevel`: rebuild the tracked cache from scratch
    and apply initial visibility. -/
def ScanLevel (st : ModState) (items : List LiveActor) : Tracked × List Effect :=
  scanGo st items []

/-- Loop body of `VisibilityManager::RefreshVisibility`: rebuild the cache,
    carrying forward `reported` and a stale-but-known position from the old
    entry, and re-apply visibility. -/
def refreshGo (st : ModState) (old : Tracked) :
    List LiveActor → Tracked → Tracked × List Effect
  | [], acc => (acc, [])
  | a :: rest, acc =>
    match actorTetId a with
    | none => refreshGo st old rest acc
    | some tetId =>
      let p := a.pos.getD (0, 0, 0)
      let base : TrackedTetromino :=
        { id := tetId, x := p.1, y := p.2.1, z := p.2.2, hasPosition := a.pos.isSome }
      let tt :=
        match assocFind tetId old with
        | none => base
        | some oldTT =>
          let withRep := { base with reported := oldTT.reported }
          if base.hasPosition = false ∧ oldTT.hasPosition = true then
            { withRep with x := oldTT.x, y := oldTT.y, z := oldTT.z, hasPosition := true }
          else withRep
      let step := applyVisibilityStep st tetId tt 10
      let r := refreshGo st old rest (assocAssign tetId step.1 acc)
      (r.1, step.2 ++ r.2)

/-- `VisibilityManager::RefreshVisibility`: no-op when the re-enumeration
    finds no items, otherwise rebuild the tracked cache. -/
def RefreshVisibility (st : ModState) (items : List LiveActor) (tracked : Tracked) :
    Tracked × List Effect :=
  if items = [] then (tracked, []) else refreshGo st tracked items []

/-- Result of processing one tracked entry in the enforcement pass. -/
structure EnforceStep where
  ms : ModState
  tt : TrackedTetromino
  queue : List PendingFenceOpen
  effects : List Effect
deriving DecidableEq

/-- Result of a whole `EnforceVisibility` pass. -/
structure EnforceResult where
  ms : ModState
  tracked : Tracked
  queue : List PendingFenceOpen
  effects : List Effect
deriving DecidableEq

/-- Per-entry body of `EnforceVisibility` (lines 416-464 of
    `VisibilityManager.cpp`): force visibility while retries remain,
    detect a proximity pickup on a visible, positioned, unreported
    collectable entity, and hide checked entities. -/
def enforceEntry (st : ModState) (fenceMap : List (String × String))
    (q : List PendingFenceOpen) (playerPos : Option Pos)
    (actor : LiveActor) (id : String) (tt : TrackedTetromino) : EnforceStep :=
  if st.ShouldBeCollectable id then
    let force := tt.visRetries > 0 ∧ IsActorHidden actor = true
    let forceEff : List Effect := if force then [Effect.setVisible id] else []
    let actor1 : LiveActor := if force then { actor with hidden := false } else actor
    let tt1 : TrackedTetromino :=
      if tt.visRetries > 0 then { tt with visRetries := tt.visRetries - 1 } else tt
    match playerPos with
    | none => { ms := st, tt := tt1, queue := q, effects := forceEff }
    | some (px, py, pz) =>
      if tt1.hasPosition = true ∧ tt1.reported = false ∧ IsActorHidden actor1 = false then
        let dx := px - tt1.x
        let dy := py - tt1.y
        let dz := pz - tt1.z
        if dx * dx + dy * dy + dz * dz < PICKUP_RADIUS_SQ then
          let locId := GetLocationId id
          { ms := st.MarkLocationChecked id,
            tt := { tt1 with reported := true },
            queue := OpenFenceForTetromino fenceMap q id,
            effects := forceEff ++ [Effect.setHidden id]
              ++ (if 0 ≤ locId then [Effect.locationCheck locId] else []) }
        else { ms := st, tt := tt1, queue := q, effects := forceEff }
      else { ms := st, tt := tt1, queue := q, effects := forceEff }
  else if st.IsLocationChecked id then
    { ms := st, tt := tt, queue := q, effects := [Effect.setHidden id] }
  else
    { ms := st, tt := tt, queue := q, effects := [] }

/-- Loop of `EnforceVisibility` over the tracked entries; entries whose
    actor is absent from this tick's re-enumeration are skipped
    unchanged. -/
def enforceGo (idToActor : List (String × LiveActor)) (playerPos : Option Pos)
    (fenceMap : List (String × String)) :
    ModState → List PendingFenceOpen → Tracked → EnforceResult
  | st, q, [] => { ms := st, tracked := [], queue := q, effects := [] }
  | st, q, (id, tt) :: rest =>
    match assocFind id idToActor with
    | none =>
      let r := enforceGo idToActor playerPos fenceMap st q rest
      { ms := r.ms, tracked := (id, tt) :: r.tracked, queue := r.queue, effects := r.effects }
    | some actor =>
      let s1 := enforceEntry st fenceMap q playerPos actor id tt
      let r := enforceGo idToActor playerPos fenceMap s1.ms s1.queue rest
      { ms := r.ms, tracked := (id, s1.tt) :: r.tracked, queue := r.queue,
        effects := s1.effects ++ r.effects }

/-- The temporary ID-to-actor map built at the top of `EnforceVisibility`
    from this tick's re-enumeration. -/
def buildIdToActor (items : List LiveActor) : List (String × LiveActor) :=
  items.foldl
    (fun m a => match actorTetId a with
      | none => m
      | some tetId => assocAssign tetId a m)
    []

/-- `VisibilityManager::EnforceVisibility`: no-op when nothing is tracked;
    otherwise enforce visibility and detect proximity pickups over the
    tracked entries, reporting each pickup's location id through the
    callback (modelled as `Effect.locationCheck`). -/
def EnforceVisibility (st : ModState) (tracked : Tracked)
    (fenceMap : List (String × String)) (q : List PendingFenceOpen)
    (items : List LiveActor) (playerPos : Option Pos) : EnforceResult :=
  if tracked = [] then { ms := st, tracked := tracked, queue := q, effects := [] }
  else enforceGo (buildIdToActor items) playerPos fenceMap st q tracked

/- ============================== dllmain.cpp ==============================
   The per-tick dispatch `on_update`, restricted to the components that can
   mutate tracked-entity visibility or produce location-check reports.
   Polling (network), HUD ticking, the debug key handlers and the inventory
   TMap synchronisation (`InventorySync::EnforceCollectionState`, which is
   itself gated on `APSynced` and touches no visibility and no reports) are
   omitted. -/

/-- The engine state the tick dispatch threads: the shared mod state, the
    visibility manager's caches, and the tick counter. -/
structure SysState where
  ms : ModState := {}
  tracked : Tracked := []
  fenceMap : List (String × String) := []
  pendingFenceOpens : List PendingFenceOpen := []
  fnFenceOpenCached : Bool := false
  tickCount : Nat := 0
deriving DecidableEq

/-- Collaborator inputs of one tick: the live-actor snapshots each pass
    would discover via `FindAllOf`, the fence map a scan would build, the
    player position, and the fence-queue resolution oracles. -/
structure TickInput where
  scanItems : List LiveActor := []
  enforceItems : List LiveActor := []
  refreshItems : List LiveActor := []
  scanFenceMap : List (String × String) := []
  playerPos : Option Pos := none
  fnFindOk : Bool := false
  fenceResolve : String → Bool := fun _ => false

/-- `TalosPrincipleArchipelagoMod::on_update`: bump the tick counter; while
    the level-transition cooldown is active just decrement it and skip all
    work; otherwise run, in source order, the deferred tetromino scan (with
    cache reset), the enforcement pass (gated on `APSynced`, every 5
    ticks), the periodic refresh (every 60 ticks), and the fence retry
    queue (every 6 ticks). -/
def onUpdate (s : SysState) (inp : TickInput) : SysState × List Effect :=
  let tick := s.tickCount + 1
  if 0 < s.ms.LevelTransitionCooldown then
    ({ s with ms := { s.ms with LevelTransitionCooldown := s.ms.LevelTransitionCooldown - 1 },
              tickCount := tick }, [])
  else
    let scanRes :
        ModState × Tracked × List (String × String) × List PendingFenceOpen × List Effect :=
      if s.ms.NeedsTetrominoScan then
        let ms2 := { s.ms with NeedsTetrominoScan := false }
        let r := ScanLevel ms2 inp.scanItems
        (ms2, r.1, (if inp.scanItems = [] then [] else inp.scanFenceMap), [], r.2)
      else (s.ms, s.tracked, s.fenceMap, s.pendingFenceOpens, [])
    let ms1 := scanRes.1
    let tracked1 := scanRes.2.1
    let fm1 := scanRes.2.2.1
    let q1 := scanRes.2.2.2.1
    let scanEffs := scanRes.2.2.2.2
    let enfRes : EnforceResult :=
      if ms1.APSynced = true ∧ tick % 5 = 0 then
        EnforceVisibility ms1 tracked1 fm1 q1 inp.enforceItems inp.playerPos
      else { ms := ms1, tracked := tracked1, queue := q1, effects := [] }
    let refRes : Tracked × List Effect :=
      if tick % 60 = 0 then RefreshVisibility enfRes.ms inp.refreshItems enfRes.tracked
      else (enfRes.tracked, [])
    let fenRes : FenceProcResult :=
      if tick % 6 = 0 then
        ProcessPendingFenceOpens s.fnFenceOpenCached inp.fnFindOk inp.fenceResolve enfRes.queue
      else { fnCached := s.fnFenceOpenCached, queue := enfRes.queue, attempted := [], opened := [] }
    ({ ms := enfRes.ms, tracked := refRes.1, fenceMap := fm1,
       pendingFenceOpens := fenRes.queue, fnFenceOpenCached := fenRes.fnCached,
       tickCount := tick },
     scanEffs ++ enfRes.effects ++ refRes.2 ++ fenRes.opened.map Effect.openFence)

/- ====================== pass sequences for liveness =====================
   Enforcement, refresh and scan passes as invoked from `on_update`, each
   with its own collaborator snapshot, for reasoning about arbitrary
   within-session pass interleavings. -/

/-- One visibility pass as dispatched by `on_update`. -/
inductive Pass where
  | enforce (items : List LiveActor) (playerPos : Option Pos)
  | refresh (items : List LiveActor)
  | scan (items : List LiveActor) (fm : List (String × String))

/-- Run a single pass on the engine state. -/
def runPass (s : SysState) : Pass → SysState × List Effect
  | Pass.enforce items playerPos =>
    let r := EnforceVisibility s.ms s.tracked s.fenceMap s.pendingFenceOpens items playerPos
    ({ s with ms := r.ms, tracked := r.tracked, pendingFenceOpens := r.queue }, r.effects)
  | Pass.refresh items =>
    let r := RefreshVisibility s.ms items s.tracked
    ({ s with tracked := r.1 }, r.2)
  | Pass.scan items fm =>
    let r := ScanLevel s.ms items
    ({ s with tracked := r.1, fenceMap := (if items = [] then [] else fm),
              pendingFenceOpens := [] }, r.2)

/-- Run a sequence of passes, concatenating their effects. -/
def runPasses (s : SysState) : List Pass → SysState × List Effect
  | [] => (s, [])
  | p :: rest =>
    let r := runPass s p
    let r2 := runPasses r.1 rest
    (r2.1, r.2 ++ r2.2)

/- ==================== concrete scenario definitions ====================== -/

/-- A live DJ1 actor (Type 1 = Door, Shape 2 = J, Number 1) at the origin,
    currently hidden by the simulation. -/
def dj1ActorHidden : LiveActor :=
  { info := some (1, 2, 1), pos := some (0, 0, 0), hidden := true }

/-- A live DJ1 actor at the origin, currently visible. -/
def dj1ActorVisible : LiveActor :=
  { info := some (1, 2, 1), pos := some (0, 0, 0), hidden := false }

/-- Engine state right after the level-transition cooldown expires and
    before the first connection: sync flag false, scan still pending. -/
def preSyncState : SysState := { ms := { LevelTransitionCooldown := 0 } }

/-- Tick input whose scan discovers the DJ1 actor. -/
def preSyncInput : TickInput := { scanItems := [dj1ActorHidden] }

/-- A tracked DJ1 entry with a known position and no pending retries. -/
def dj1TrackedEntry : TrackedTetromino :=
  { id := "DJ1", x := 0, y := 0, z := 0, reported := false, visRetries := 0,
    hasPosition := true }

/-- Engine state tracking the DJ1 entry, nothing checked yet. -/
def dj1TrackingState : SysState :=
  { ms := { LevelTransitionCooldown := 0 }, tracked := [("DJ1", dj1TrackedEntry)] }

/-- An enforcement pass with the player standing on the DJ1 actor. -/
def dj1PickupPass : Pass := Pass.enforce [dj1ActorVisible] (some (0, 0, 0))

/- ========================= helper lemmas ================================ -/

theorem assocFind_mem {α β : Type} [DecidableEq α] {k : α} {v : β} :
    ∀ {l : List (α × β)}, assocFind k l = some v → (k, v) ∈ l := by
  intro l
  induction l with
  | nil => intro h; simp [assocFind] at h
  | cons e rest ih =>
    intro h
    obtain ⟨k2, v2⟩ := e
    simp only [assocFind] at h
    by_cases hk : k = k2
    · simp [hk] at h
      simp [hk, h]
    · simp [hk] at h
      exact List.mem_cons_of_mem _ (ih h)

theorem assoc_value_inj {α β : Type} {l : List (α × β)}
    (hnd : (l.map Prod.snd).Nodup) {a b : α} {v : β}
    (ha : (a, v) ∈ l) (hb : (b, v) ∈ l) : a = b := by
  induction l with
  | nil => simp at ha
  | cons e rest ih =>
    obtain ⟨k2, v2⟩ := e
    simp only [List.map_cons, List.nodup_cons] at hnd
    rcases List.mem_cons.mp ha with ha1 | ha1
    · rcases List.mem_cons.mp hb with hb1 | hb1
      · rw [← ha1] at hb1
        exact ((Prod.mk.injEq _ _ _ _).mp hb1).1.symm
      · exfalso
        apply hnd.1
        have hv : v2 = v := (congrArg Prod.snd ha1).symm
        rw [hv]
        exact List.mem_map.mpr ⟨(b, v), hb1, rfl⟩
    · rcases List.mem_cons.mp hb with hb1 | hb1
      · exfalso
        apply hnd.1
        have hv : v2 = v := (congrArg Prod.snd hb1).symm
        rw [hv]
        exact List.mem_map.mpr ⟨(a, v), ha1, rfl⟩
      · exact ih hnd.2 ha1 hb1

theorem assocFind_of_keysNodup {α β : Type} [DecidableEq α] {l : List (α × β)}
    (hnd : (l.map Prod.fst).Nodup) {k : α} {v : β}
    (hmem : (k, v) ∈ l) : assocFind k l = some v := by
  induction l with
  | nil => simp at hmem
  | cons e rest ih =>
    simp only [List.map_cons, List.nodup_cons] at hnd
    rcases List.mem_cons.mp hmem with h1 | h1
    · rw [← h1]
      simp [assocFind]
    · have hk : k ≠ e.1 := by
        intro he
        apply hnd.1
        rw [he] at h1
        exact List.mem_map.mpr ⟨(e.1, v), h1, rfl⟩
      obtain ⟨k2, v2⟩ := e
      simp only [assocFind]
      simp only [Prod.fst] at hk
      rw [if_neg hk]
      exact ih hnd.2 h1

theorem updateCount_same (m : String → Nat) (fam : String) (v : Nat) :
    updateCount m fam v fam = v := by simp [updateCount]

theorem updateCount_ne (m : String → Nat) {fam q : String} (v : Nat) (h : q ≠ fam) :
    updateCount m fam v q = m q := by simp [updateCount, h]

theorem mem_setInsert_self (x : String) (l : List String) : x ∈ setInsert x l := by
  unfold setInsert
  split
  · assumption
  · simp

theorem mem_setInsert_of_mem {x : String} {l : List String} (y : String) (h : x ∈ l) :
    x ∈ setInsert y l := by
  unfold setInsert
  split
  · exact h
  · exact List.mem_append_left _ h

theorem setInsert_of_mem {x : String} {l : List String} (h : x ∈ l) :
    setInsert x l = l := by simp [setInsert, h]

theorem nodup_setInsert (x : String) {l : List String} (h : l.Nodup) :
    (setInsert x l).Nodup := by
  unfold setInsert
  split
  · exact h
  · next hx => simp [List.nodup_append, h, hx]

/- ========================= location-table lemmas ========================= -/

theorem locationNames_nodup : locationNames.Nodup := by decide

theorem locationIds_nodup : locationIds.Nodup := by decide

theorem GetLocationId_inj {a b : String} (ha : 0 ≤ GetLocationId a)
    (hab : GetLocationId a = GetLocationId b) : a = b := by
  unfold GetLocationId at ha hab
  cases hfa : assocFind a locationEntries with
  | none => rw [hfa] at ha; simp at ha
  | some v =>
    rw [hfa] at ha hab
    simp only [Option.getD_some] at ha hab
    cases hfb : assocFind b locationEntries with
    | none =>
      rw [hfb] at hab
      simp only [Option.getD_none] at hab
      rw [hab] at ha
      simp at ha
    | some w =>
      rw [hfb] at hab
      simp only [Option.getD_some] at hab
      subst hab
      exact assoc_value_inj locationIds_nodup (assocFind_mem hfa) (assocFind_mem hfb)

theorem GetLocationId_of_mem {n : String} {i : Int}
    (h : (n, i) ∈ locationEntries) : GetLocationId n = i := by
  unfold GetLocationId
  rw [assocFind_of_keysNodup locationNames_nodup h]
  rfl

theorem GetLocationName_of_mem {n : String} {i : Int}
    (h : (n, i) ∈ locationEntries) : GetLocationName i = n := by
  unfold GetLocationName
  have hmem : (i, n) ∈ locationEntriesById :=
    List.mem_map.mpr ⟨(n, i), h, rfl⟩
  have hkeys : (locationEntriesById.map Prod.fst).Nodup := by
    have : locationEntriesById.map Prod.fst = locationEntries.map Prod.snd := by
      simp [locationEntriesById]
    rw [this]
    exact locationIds_nodup
  rw [assocFind_of_keysNodup hkeys hmem]
  rfl

/- ========================= resolution lemmas ============================= -/

theorem grantsFor_runStream :
    ∀ (l : List Int) (m : String → Nat) (fam : String),
      grantsFor fam (runStream m l)
        = ((tetrominoSequences fam).drop (m fam)).take (countFor fam l) := by
  intro l
  induction l with
  | nil => intro m fam; simp [runStream, grantsFor, countFor]
  | cons i rest ih =>
    intro m fam
    cases hp : apItemIdToPrefixMap i with
    | none =>
      have hres : ResolveNextItem m i = (none, m) := by
        simp [ResolveNextItem, hp]
      simp only [runStream, hres, grantsFor, hp]
      simp only [reduceCtorEq, if_false]
      rw [ih]
      simp [countFor, hp]
    | some q =>
      by_cases hq : q = fam
      · subst hq
        by_cases hseq : tetrominoSequences q = []
        · have hres : ResolveNextItem m i = (none, m) := by
            simp [ResolveNextItem, hp, hseq]
          simp only [runStream, hres, grantsFor, hp, if_pos rfl]
          rw [ih]
          simp [countFor, hp, hseq]
        · by_cases hlen : (tetrominoSequences q).length < m q + 1
          · -- overflow: counter past the end, output none
            have hres : ResolveNextItem m i
                = (none, updateCount m q (m q + 1)) := by
              simp [ResolveNextItem, hp, hseq, hlen]
            have hle : (tetrominoSequences q).length ≤ m q := Nat.lt_succ_iff.mp hlen
            simp only [runStream, hres, grantsFor, hp, if_pos rfl]
            rw [ih, updateCount_same]
            rw [List.drop_eq_nil_of_le hle, List.drop_eq_nil_of_le (Nat.le_succ_of_le hle)]
            simp
          · -- in range: output the counter-th element
            have hlt : m q < (tetrominoSequences q).length := by omega
            have hres : ResolveNextItem m i
                = (some ((tetrominoSequences q).get ⟨m q, hlt⟩),
                   updateCount m q (m q + 1)) := by
              simp only [ResolveNextItem, hp, if_neg hseq, if_neg hlen, Nat.add_sub_cancel]
              rw [List.get?_eq_getElem?, List.getElem?_eq_getElem hlt]
              simp
            simp only [runStream, hres, grantsFor, hp, if_pos rfl]
            rw [ih, updateCount_same]
            have hcnt : countFor q (i :: rest) = countFor q rest + 1 := by
              simp [countFor, hp, Nat.add_comm]
            rw [hcnt, List.drop_eq_getElem_cons hlt, List.take_succ_cons]
            rfl
      · -- a grant of another family leaves this family's view unchanged
        have hne : ¬ (apItemIdToPrefixMap i = some fam) := by
          rw [hp]; simp [hq]
        have hcnt : countFor fam (i :: rest) = countFor fam rest := by
          simp [countFor, hne]
        by_cases hseq : tetrominoSequences q = []
        · have hres : ResolveNextItem m i = (none, m) := by
            simp [ResolveNextItem, hp, hseq]
          simp only [runStream, hres, grantsFor, if_neg hne]
          rw [ih, hcnt]
        · by_cases hlen : (tetrominoSequences q).length < m q + 1
          · have hres : ResolveNextItem m i
                = (none, updateCount m q (m q + 1)) := by
              simp [ResolveNextItem, hp, hseq, hlen]
            simp only [runStream, hres, grantsFor, if_neg hne]
            rw [ih, updateCount_ne _ _ (fun h => hq h.symm), hcnt]
          · have hlt : m q < (tetrominoSequences q).length := by omega
            have hres : ResolveNextItem m i
                = (some ((tetrominoSequences q).get ⟨m q, hlt⟩),
                   updateCount m q (m q + 1)) := by
              simp only [ResolveNextItem, hp, if_neg hseq, if_neg hlen, Nat.add_sub_cancel]
              rw [List.get?_eq_getElem?, List.getElem?_eq_getElem hlt]
              simp
            simp only [runStream, hres, grantsFor, if_neg hne]
            rw [ih, updateCount_ne _ _ (fun h => hq h.symm), hcnt]

theorem runCounters_eq :
    ∀ (l : List Int) (m : String → Nat) (fam : String),
      tetrominoSequences fam ≠ [] →
      runCounters m l fam = m fam + countFor fam l := by
  intro l
  induction l with
  | nil => intro m fam _; simp [runCounters, countFor]
  | cons i rest ih =>
    intro m fam hseqf
    cases hp : apItemIdToPrefixMap i with
    | none =>
      have hres : ResolveNextItem m i = (none, m) := by simp [ResolveNextItem, hp]
      simp only [runCounters, hres]
      rw [ih _ _ hseqf]
      simp [countFor, hp]
    | some q =>
      by_cases hq : q = fam
      · subst hq
        have hcnt : countFor q (i :: rest) = countFor q rest + 1 := by
          simp [countFor, hp, Nat.add_comm]
        have hsnd : (ResolveNextItem m i).2 = updateCount m q (m q + 1) := by
          simp only [ResolveNextItem, hp, if_neg hseqf]
          split <;> rfl
        simp only [runCounters, hsnd]
        rw [ih _ _ hseqf, updateCount_same, hcnt]
        omega
      · have hne : ¬ (apItemIdToPrefixMap i = some fam) := by rw [hp]; simp [hq]
        have hcnt : countFor fam (i :: rest) = countFor fam rest := by
          simp [countFor, hne]
        have hsnd : (ResolveNextItem m i).2 fam = m fam := by
          simp only [ResolveNextItem, hp]
          split
          · rfl
          · split
            · exact updateCount_ne _ _ (fun h => hq h.symm)
            · exact updateCount_ne _ _ (fun h => hq h.symm)
        simp only [runCounters]
        rw [ih _ _ hseqf, hsnd, hcnt]

theorem ResolveNextItem_snd_cases (m : String → Nat) (i : Int) :
    (ResolveNextItem m i).2 = m ∨
    ∃ q, apItemIdToPrefixMap i = some q
      ∧ (ResolveNextItem m i).2 = updateCount m q (m q + 1) := by
  unfold ResolveNextItem
  cases hp : apItemIdToPrefixMap i with
  | none => left; rfl
  | some q =>
    simp only
    split
    · left; rfl
    · right
      refine ⟨q, rfl, ?_⟩
      split <;> rfl

theorem countFor_cons_le (fam : String) (i : Int) (rest : List Int) :
    countFor fam rest ≤ countFor fam (i :: rest) := by
  simp only [countFor]
  split <;> omega

theorem runCounters_le :
    ∀ (l : List Int) (m : String → Nat) (fam : String),
      runCounters m l fam ≤ m fam + countFor fam l := by
  intro l
  induction l with
  | nil => intro m fam; simp [runCounters, countFor]
  | cons i rest ih =>
    intro m fam
    simp only [runCounters]
    rcases ResolveNextItem_snd_cases m i with h | ⟨q, hp, h⟩
    · rw [h]
      calc runCounters m rest fam ≤ m fam + countFor fam rest := ih _ _
        _ ≤ m fam + countFor fam (i :: rest) :=
            Nat.add_le_add_left (countFor_cons_le fam i rest) _
    · by_cases hq : q = fam
      · subst hq
        have hcnt : countFor q (i :: rest) = 1 + countFor q rest := by
          simp [countFor, hp]
        rw [h, hcnt]
        calc runCounters (updateCount m q (m q + 1)) rest q
            ≤ updateCount m q (m q + 1) q + countFor q rest := ih _ _
          _ = m q + (1 + countFor q rest) := by rw [updateCount_same]; omega
      · rw [h]
        calc runCounters (updateCount m q (m q + 1)) rest fam
            ≤ updateCount m q (m q + 1) fam + countFor fam rest := ih _ _
          _ = m fam + countFor fam rest := by
              rw [updateCount_ne _ _ (fun hh => hq hh.symm)]
          _ ≤ m fam + countFor fam (i :: rest) :=
              Nat.add_le_add_left (countFor_cons_le fam i rest) _

theorem countFor_replicate {i : Int} {fam : String}
    (hp : apItemIdToPrefixMap i = some fam) :
    ∀ j, countFor fam (List.replicate j i) = j := by
  intro j
  induction j with
  | zero => simp [countFor]
  | succ n ih =>
    rw [List.replicate_succ]
    simp only [countFor, hp, ih]
    exact Nat.add_comm 1 n

theorem runStream_replicate_snd {i : Int} {fam : String}
    (hp : apItemIdToPrefixMap i = some fam) :
    ∀ (j : Nat) (m : String → Nat),
      (runStream m (List.replicate j i)).map Prod.snd
        = (((tetrominoSequences fam).drop (m fam)).take j).map some
            ++ List.replicate (j - ((tetrominoSequences fam).length - m fam)) none := by
  intro j
  induction j with
  | zero => intro m; simp [runStream]
  | succ n ih =>
    intro m
    rw [List.replicate_succ]
    by_cases hseq : tetrominoSequences fam = []
    · have hres : ResolveNextItem m i = (none, m) := by simp [ResolveNextItem, hp, hseq]
      simp only [runStream, hres, List.map_cons]
      rw [ih]
      simp [hseq, List.replicate_succ]
    · by_cases hlen : (tetrominoSequences fam).length < m fam + 1
      · have hle : (tetrominoSequences fam).length ≤ m fam := Nat.lt_succ_iff.mp hlen
        have hres : ResolveNextItem m i = (none, updateCount m fam (m fam + 1)) := by
          simp [ResolveNextItem, hp, hseq, hlen]
        simp only [runStream, hres, List.map_cons]
        rw [ih, updateCount_same]
        rw [List.drop_eq_nil_of_le hle, List.drop_eq_nil_of_le (Nat.le_succ_of_le hle)]
        have h1 : (tetrominoSequences fam).length - m fam = 0 := by omega
        have h2 : (tetrominoSequences fam).length - (m fam + 1) = 0 := by omega
        rw [h1, h2]
        simp [List.replicate_succ]
      · have hlt : m fam < (tetrominoSequences fam).length := by omega
        have hres : ResolveNextItem m i
            = (some ((tetrominoSequences fam).get ⟨m fam, hlt⟩),
               updateCount m fam (m fam + 1)) := by
          simp only [ResolveNextItem, hp, if_neg hseq, if_neg hlen, Nat.add_sub_cancel]
          rw [List.get?_eq_getElem?, List.getElem?_eq_getElem hlt]
          simp
        simp only [runStream, hres, List.map_cons]
        rw [ih, updateCount_same]
        rw [List.drop_eq_getElem_cons hlt, List.take_succ_cons, List.map_cons]
        have h3 : n + 1 - ((tetrominoSequences fam).length - m fam)
            = n - ((tetrominoSequences fam).length - (m fam + 1)) := by omega
        rw [h3]
        rfl

/- ========================= claims C2, C3, C4, C10 ======================== -/

/-- C2 (counterexample): the claimed invariant
    `ReceivedCount[prefix] ≤ |OrderedSequence[prefix]|` fails on the code:
    resolving the Green-J item id 0x540000 six times from a reset counter
    state leaves ReceivedCount["DJ"] = 6 while the DJ sequence has only 5
    entities — `ResolveNextItem` increments the counter before the bounds
    check and never reverts it. -/
theorem claim2_counterexample :
    ¬ (runCounters zeroCounters (List.replicate 6 (0x540000 : Int)) "DJ"
        ≤ (tetrominoSequences "DJ").length) := by decide

/-- C2 (amended): after any sequence of `ResolveNextItem` and
    `ResetItemCounters` calls, a family's ReceivedCount equals the number
    of `ResolveNextItem` calls for that family since the last reset (and
    may therefore exceed the sequence length); a resolution request whose
    counter would land beyond the sequence length is rejected (returns
    `none`) and does not wrap around to earlier entities. -/
theorem claim2_received_count :
    (∀ m : String → Nat, ResetItemCounters m = zeroCounters)
    ∧ (∀ (l : List Int) (fam : String), tetrominoSequences fam ≠ [] →
        runCounters zeroCounters l fam = countFor fam l)
    ∧ (∀ (m : String → Nat) (i : Int) (fam : String),
        apItemIdToPrefixMap i = some fam →
        (tetrominoSequences fam).length ≤ m fam →
        (ResolveNextItem m i).1 = none) := by
  refine ⟨fun _ => rfl, ?_, ?_⟩
  · intro l fam h
    rw [runCounters_eq l zeroCounters fam h]
    simp [zeroCounters]
  · intro m i fam hp hlen
    simp only [ResolveNextItem, hp]
    split
    · rfl
    · rw [if_pos (by omega)]

/-- C2 (witness for the amended claim): the DJ family has a nonempty
    sequence and its counter after three grants is the grant count; a
    resolution with the counter already at the sequence length is
    rejected. -/
theorem claim2_received_count_witness :
    (tetrominoSequences "DJ" ≠ []
      ∧ runCounters zeroCounters (List.replicate 3 (0x540000 : Int)) "DJ"
          = countFor "DJ" (List.replicate 3 (0x540000 : Int)))
    ∧ (apItemIdToPrefixMap 0x540000 = some "DJ"
      ∧ (ResolveNextItem (fun _ => 5) 0x540000).1 = none) :=
  ⟨⟨by decide, claim2_received_count.2.1 (List.replicate 3 0x540000) "DJ" (by decide)⟩,
   ⟨by decide, claim2_received_count.2.2 (fun _ => 5) 0x540000 "DJ" (by decide) (by decide)⟩⟩

/-- C3: resolution is a deterministic function of replay order — for every
    grant stream replayed from a reset counter state, the successful
    resolutions of each family are exactly the first `countFor` entities of
    that family's sequence, in order, independent of interleaving with
    other families; and every family sequence is sorted by numeric
    suffix. -/
theorem claim3_resolution_determinism :
    (∀ (l : List Int) (fam : String),
        successesFor fam l = (tetrominoSequences fam).take (countFor fam l))
    ∧ (∀ fam : String, List.Sorted tetLe (tetrominoSequences fam)) := by
  constructor
  · intro l fam
    unfold successesFor
    rw [grantsFor_runStream]
    simp [zeroCounters]
  · intro fam
    exact List.sorted_insertionSort tetLe _

/-- C4: granting a family `|sequence| + k` times (k ≥ 1) from a reset
    counter state resolves the whole sequence in order, leaves each of the
    last k grants unresolved (`none`), and leaves the family's
    ReceivedCount at most `|sequence| + k`. -/
theorem claim4_overflow_safety :
    ∀ (i : Int) (fam : String) (k : Nat),
      apItemIdToPrefixMap i = some fam → 1 ≤ k →
      ((runStream zeroCounters
          (List.replicate ((tetrominoSequences fam).length + k) i)).map Prod.snd
        = (tetrominoSequences fam).map some ++ List.replicate k none)
      ∧ runCounters zeroCounters
          (List.replicate ((tetrominoSequences fam).length + k) i) fam
        ≤ (tetrominoSequences fam).length + k := by
  intro i fam k hp _
  constructor
  · rw [runStream_replicate_snd hp]
    have hz : zeroCounters fam = 0 := rfl
    rw [hz, List.drop_zero, List.take_of_length_le (by omega)]
    have hcount : (tetrominoSequences fam).length + k
        - ((tetrominoSequences fam).length - 0) = k := by omega
    rw [hcount]
  · calc runCounters zeroCounters
          (List.replicate ((tetrominoSequences fam).length + k) i) fam
        ≤ zeroCounters fam
            + countFor fam (List.replicate ((tetrominoSequences fam).length + k) i) :=
          runCounters_le _ _ _
      _ = (tetrominoSequences fam).length + k := by
          rw [countFor_replicate hp]
          simp [zeroCounters]

/-- C4 (witness): six grants of the Green-J item resolve DJ1..DJ5 then one
    `none`, with the counter bounded by 6. -/
theorem claim4_overflow_safety_witness :
    (apItemIdToPrefixMap 0x540000 = some "DJ" ∧ (1 : Nat) ≤ 1)
    ∧ (((runStream zeroCounters
          (List.replicate ((tetrominoSequences "DJ").length + 1) 0x540000)).map Prod.snd
        = (tetrominoSequences "DJ").map some ++ List.replicate 1 none)
      ∧ runCounters zeroCounters
          (List.replicate ((tetrominoSequences "DJ").length + 1) 0x540000) "DJ"
        ≤ (tetrominoSequences "DJ").length + 1) :=
  ⟨⟨by decide, by decide⟩,
   claim4_overflow_safety 0x540000 "DJ" 1 (by decide) (by decide)⟩

/-- C10: `ResolveNextItem` is atomic on the unknown-identifier error path —
    an item id that is not in the item-id table, or whose family has no (or
    an empty) sequence, yields `none` and leaves every family's counter
    unchanged. -/
theorem claim10_unknown_id_atomic :
    ∀ (m : String → Nat) (i : Int),
      (apItemIdToPrefixMap i = none
        ∨ ∃ fam, apItemIdToPrefixMap i = some fam ∧ tetrominoSequences fam = []) →
      ResolveNextItem m i = (none, m) := by
  intro m i h
  rcases h with h | ⟨fam, hp, hseq⟩
  · simp [ResolveNextItem, h]
  · simp [ResolveNextItem, hp, hseq]

/-- C10 (witness): item id 0 is unknown and resolving it from the reset
    counter state returns `none` with the counters untouched. -/
theorem claim10_unknown_id_atomic_witness :
    (apItemIdToPrefixMap 0 = none
      ∨ ∃ fam, apItemIdToPrefixMap 0 = some fam ∧ tetrominoSequences fam = [])
    ∧ ResolveNextItem zeroCounters 0 = (none, zeroCounters) :=
  ⟨Or.inl (by decide), claim10_unknown_id_atomic zeroCounters 0 (Or.inl (by decide))⟩

/- ============================== claim C9 ================================= -/

/-- C9: the entity-name to location-id mapping is a bijection on the built
    tables — round-tripping through `GetLocationId` and `GetLocationName`
    is the identity on table entries in both directions, and both the
    entity names and the assigned location ids are pairwise distinct. -/
theorem claim9_location_bijection :
    (∀ n ∈ locationNames, GetLocationName (GetLocationId n) = n)
    ∧ (∀ i ∈ locationIds, GetLocationId (GetLocationName i) = i)
    ∧ locationNames.Nodup ∧ locationIds.Nodup := by
  refine ⟨?_, ?_, locationNames_nodup, locationIds_nodup⟩
  · intro n hn
    obtain ⟨e, he, hfst⟩ := List.mem_map.mp hn
    obtain ⟨n2, i⟩ := e
    cases hfst
    rw [GetLocationId_of_mem he, GetLocationName_of_mem he]
  · intro i hi
    obtain ⟨e, he, hsnd⟩ := List.mem_map.mp hi
    obtain ⟨n, i2⟩ := e
    cases hsnd
    rw [GetLocationName_of_mem he, GetLocationId_of_mem he]

/-- C9 (witness): the round trips hold at the concrete table entries DJ1
    and 0x540000 (the id assigned to DJ3, the first table entry). -/
theorem claim9_location_bijection_witness :
    ("DJ1" ∈ locationNames ∧ GetLocationName (GetLocationId "DJ1") = "DJ1")
    ∧ ((5505024 : Int) ∈ locationIds
      ∧ GetLocationId (GetLocationName 5505024) = 5505024) :=
  ⟨⟨by decide, claim9_location_bijection.1 "DJ1" (by decide)⟩,
   ⟨by decide, claim9_location_bijection.2.1 5505024 (by decide)⟩⟩

/- ==================== slot-connected handler lemmas ====================== -/

theorem restore_mem_mono :
    ∀ (sc : List Int) (c : List String) {x : String}, x ∈ c → x ∈ restoreChecked sc c := by
  intro sc
  induction sc with
  | nil => intro c x h; exact h
  | cons locId rest ih =>
    intro c x h
    simp only [restoreChecked]
    split
    · exact ih c h
    · exact ih _ (mem_setInsert_of_mem _ h)

theorem restore_nodup :
    ∀ (sc : List Int) {c : List String}, c.Nodup → (restoreChecked sc c).Nodup := by
  intro sc
  induction sc with
  | nil => intro c h; exact h
  | cons locId rest ih =>
    intro c h
    simp only [restoreChecked]
    split
    · exact ih h
    · exact ih (nodup_setInsert _ h)

theorem mem_restore_of_valid :
    ∀ (sc : List Int) (c : List String) {locId : Int},
      locId ∈ sc → GetLocationName locId ≠ "" →
      GetLocationName locId ∈ restoreChecked sc c := by
  intro sc
  induction sc with
  | nil => intro c locId h; simp at h
  | cons l2 rest ih =>
    intro c locId hmem hname
    simp only [restoreChecked]
    rcases List.mem_cons.mp hmem with h1 | h1
    · subst h1
      rw [if_neg hname]
      exact restore_mem_mono rest _ (mem_setInsert_self _ _)
    · split
      · exact ih c h1 hname
      · exact ih _ h1 hname

theorem restore_noop :
    ∀ (sc : List Int) (c : List String),
      (∀ locId ∈ sc, GetLocationName locId = "" ∨ GetLocationName locId ∈ c) →
      restoreChecked sc c = c := by
  intro sc
  induction sc with
  | nil => intro c _; rfl
  | cons locId rest ih =>
    intro c h
    simp only [restoreChecked]
    by_cases hname : GetLocationName locId = ""
    · rw [if_pos hname]
      exact ih c (fun l hl => h l (List.mem_cons_of_mem _ hl))
    · rw [if_neg hname]
      have hmem : GetLocationName locId ∈ c :=
        (h locId (List.mem_cons_self _ _)).resolve_left hname
      rw [setInsert_of_mem hmem]
      exact ih c (fun l hl => h l (List.mem_cons_of_mem _ hl))

theorem restore_idem (sc : List Int) (c : List String) :
    restoreChecked sc (restoreChecked sc c) = restoreChecked sc c := by
  apply restore_noop
  intro locId hmem
  by_cases hname : GetLocationName locId = ""
  · exact Or.inl hname
  · exact Or.inr (mem_restore_of_valid sc c hmem hname)

theorem computeToSend_cons (sc : List Int) (h : String) (rest : List String) :
    computeToSend sc (h :: rest)
      = if 0 ≤ GetLocationId h ∧ GetLocationId h ∉ sc
        then GetLocationId h :: computeToSend sc rest
        else computeToSend sc rest := by
  by_cases hcond : 0 ≤ GetLocationId h ∧ GetLocationId h ∉ sc
  · rw [if_pos hcond]
    simp only [computeToSend, List.filterMap_cons, if_pos hcond]
  · rw [if_neg hcond]
    simp only [computeToSend, List.filterMap_cons, if_neg hcond]

theorem computeToSend_count_zero {sc : List Int} {tet : String} :
    ∀ {checked : List String}, tet ∉ checked →
      (computeToSend sc checked).count (GetLocationId tet) = 0 := by
  intro checked
  induction checked with
  | nil => intro; simp [computeToSend]
  | cons h rest ih =>
    intro hnotin
    have hne : h ≠ tet := fun he => hnotin (he ▸ List.mem_cons_self h rest)
    have htail : tet ∉ rest := fun ht => hnotin (List.mem_cons_of_mem _ ht)
    rw [computeToSend_cons]
    by_cases hcond : 0 ≤ GetLocationId h ∧ GetLocationId h ∉ sc
    · rw [if_pos hcond, List.count_cons]
      have hidne : ¬ ((GetLocationId h == GetLocationId tet) = true) := by
        simp only [beq_iff_eq]
        intro heq
        exact hne (GetLocationId_inj hcond.1 heq)
      rw [if_neg hidne, ih htail]
    · rw [if_neg hcond]
      exact ih htail

theorem computeToSend_count_one {sc : List Int} {tet : String}
    (hge : 0 ≤ GetLocationId tet) (hnot : GetLocationId tet ∉ sc) :
    ∀ {checked : List String}, checked.Nodup → tet ∈ checked →
      (computeToSend sc checked).count (GetLocationId tet) = 1 := by
  intro checked
  induction checked with
  | nil => intro _ hmem; simp at hmem
  | cons h rest ih =>
    intro hnd hmem
    rw [List.nodup_cons] at hnd
    rw [computeToSend_cons]
    by_cases hht : h = tet
    · subst hht
      rw [if_pos ⟨hge, hnot⟩, List.count_cons]
      rw [if_pos (by simp), computeToSend_count_zero hnd.1]
    · have htail : tet ∈ rest := by
        rcases List.mem_cons.mp hmem with h1 | h1
        · exact absurd h1.symm hht
        · exact h1
      by_cases hcond : 0 ≤ GetLocationId h ∧ GetLocationId h ∉ sc
      · rw [if_pos hcond, List.count_cons]
        have hidne : ¬ ((GetLocationId h == GetLocationId tet) = true) := by
          simp only [beq_iff_eq]
          intro heq
          exact hht (GetLocationId_inj hcond.1 heq)
        rw [if_neg hidne, ih hnd.2 htail]
      · rw [if_neg hcond]
        exact ih hnd.2 htail

/- ========================== claims C5 and C6 ============================= -/

/-- C5: local-ahead reconciliation — when the local checked set contains an
    entity whose location id the server's authoritative set lacks at
    slot-connect time, the single slot-connected handler execution sends
    exactly one outbound location-check report for that location. -/
theorem claim5_local_ahead_once :
    ∀ (st : ModState) (counters : String → Nat) (sc : List Int)
      (rs : Option Int) (tet : String),
      st.CheckedLocations.Nodup → tet ∈ st.CheckedLocations →
      0 ≤ GetLocationId tet → GetLocationId tet ∉ sc →
      ((onSlotConnected st counters sc rs).2.2).count (GetLocationId tet) = 1 := by
  intro st counters sc rs tet hnd hmem hge hnot
  have h1 : (onSlotConnected st counters sc rs).2.2
      = computeToSend sc (restoreChecked sc st.CheckedLocations) := rfl
  rw [h1]
  exact computeToSend_count_one hge hnot (restore_nodup sc hnd)
    (restore_mem_mono sc _ hmem)

/-- C5 (witness): with only DJ1 checked locally and an empty server set,
    the reconnect handler reports DJ1's location exactly once. -/
theorem claim5_local_ahead_once_witness :
    ((["DJ1"] : List String).Nodup ∧ "DJ1" ∈ (["DJ1"] : List String)
      ∧ 0 ≤ GetLocationId "DJ1" ∧ GetLocationId "DJ1" ∉ ([] : List Int))
    ∧ ((onSlotConnected { CheckedLocations := ["DJ1"] } zeroCounters [] none).2.2).count
        (GetLocationId "DJ1") = 1 :=
  ⟨⟨by decide, by decide, by decide, by decide⟩,
   claim5_local_ahead_once { CheckedLocations := ["DJ1"] } zeroCounters [] none "DJ1"
     (by decide) (by decide) (by decide) (by decide)⟩

/-- C6: reconnect idempotence — replaying the same server-authoritative
    checked-location set through the slot-connected restore step twice
    leaves `CheckedLocations` exactly as after the first replay, for every
    server set and every starting state. -/
theorem claim6_reconnect_idempotent :
    ∀ (st : ModState) (counters : String → Nat) (sc : List Int) (rs : Option Int),
      ((onSlotConnected (onSlotConnected st counters sc rs).1 counters sc rs).1).CheckedLocations
        = ((onSlotConnected st counters sc rs).1).CheckedLocations := by
  intro st counters sc rs
  show restoreChecked sc (restoreChecked sc st.CheckedLocations)
      = restoreChecked sc st.CheckedLocations
  exact restore_idem sc st.CheckedLocations

/- ===================== visibility pass lemmas ============================ -/

theorem shouldBeCollectable_iff (st : ModState) (id : String) :
    st.ShouldBeCollectable id = true ↔ id ∉ st.CheckedLocations := by
  simp [ModState.ShouldBeCollectable, ModState.IsLocationChecked]

theorem markLocationChecked_mem {st : ModState} {x : String} (id : String)
    (h : x ∈ st.CheckedLocations) :
    x ∈ (st.MarkLocationChecked id).CheckedLocations :=
  mem_setInsert_of_mem id h

theorem markLocationChecked_mem_self (st : ModState) (id : String) :
    id ∈ (st.MarkLocationChecked id).CheckedLocations :=
  mem_setInsert_self id st.CheckedLocations

theorem applyVisibilityStep_no_locationCheck (st : ModState) (tetId : String)
    (tt : TrackedTetromino) (retries : Nat) (v : Int) :
    Effect.locationCheck v ∉ (applyVisibilityStep st tetId tt retries).2 := by
  unfold applyVisibilityStep
  split
  · simp
  · split <;> simp

theorem scanGo_no_locationCheck (st : ModState) :
    ∀ (items : List LiveActor) (acc : Tracked) (v : Int),
      Effect.locationCheck v ∉ (scanGo st items acc).2 := by
  intro items
  induction items with
  | nil => intro acc v; simp [scanGo]
  | cons a rest ih =>
    intro acc v
    cases h : actorTetId a with
    | none => simp only [scanGo, h]; exact ih acc v
    | some tetId =>
      simp only [scanGo, h]
      intro hmem
      rw [List.mem_append] at hmem
      rcases hmem with h1 | h1
      · exact applyVisibilityStep_no_locationCheck st tetId _ _ v h1
      · exact ih _ v h1

theorem refreshGo_no_locationCheck (st : ModState) (old : Tracked) :
    ∀ (items : List LiveActor) (acc : Tracked) (v : Int),
      Effect.locationCheck v ∉ (refreshGo st old items acc).2 := by
  intro items
  induction items with
  | nil => intro acc v; simp [refreshGo]
  | cons a rest ih =>
    intro acc v
    cases h : actorTetId a with
    | none => simp only [refreshGo, h]; exact ih acc v
    | some tetId =>
      simp only [refreshGo, h]
      intro hmem
      rw [List.mem_append] at hmem
      rcases hmem with h1 | h1
      · exact applyVisibilityStep_no_locationCheck st tetId _ _ v h1
      · exact ih _ v h1

theorem ScanLevel_no_locationCheck (st : ModState) (items : List LiveActor) (v : Int) :
    Effect.locationCheck v ∉ (ScanLevel st items).2 :=
  scanGo_no_locationCheck st items [] v

theorem RefreshVisibility_no_locationCheck (st : ModState) (items : List LiveActor)
    (tracked : Tracked) (v : Int) :
    Effect.locationCheck v ∉ (RefreshVisibility st items tracked).2 := by
  unfold RefreshVisibility
  split
  · simp
  · exact refreshGo_no_locationCheck st tracked items [] v

theorem enforceEntry_ms_cases (st : ModState) (fm : List (String × String))
    (q : List PendingFenceOpen) (pp : Option Pos) (actor : LiveActor)
    (id : String) (tt : TrackedTetromino) :
    (enforceEntry st fm q pp actor id tt).ms = st
    ∨ (enforceEntry st fm q pp actor id tt).ms = st.MarkLocationChecked id := by
  simp only [enforceEntry]
  repeat' split
  all_goals first | (left; rfl) | (right; rfl)

theorem enforceEntry_report (st : ModState) (fm : List (String × String))
    (q : List PendingFenceOpen) (pp : Option Pos) (actor : LiveActor)
    (id : String) (tt : TrackedTetromino) (v : Int) :
    Effect.locationCheck v ∈ (enforceEntry st fm q pp actor id tt).effects →
    0 ≤ v ∧ v = GetLocationId id ∧ st.ShouldBeCollectable id = true
      ∧ id ∈ (enforceEntry st fm q pp actor id tt).ms.CheckedLocations := by
  simp only [enforceEntry]
  repeat' split
  all_goals intro hmem
  all_goals simp_all [markLocationChecked_mem_self]

theorem enforceEntry_checked_mono (st : ModState) (fm : List (String × String))
    (q : List PendingFenceOpen) (pp : Option Pos) (actor : LiveActor)
    (id : String) (tt : TrackedTetromino) {x : String}
    (h : x ∈ st.CheckedLocations) :
    x ∈ (enforceEntry st fm q pp actor id tt).ms.CheckedLocations := by
  rcases enforceEntry_ms_cases st fm q pp actor id tt with hm | hm
  · rw [hm]; exact h
  · rw [hm]; exact markLocationChecked_mem id h

theorem enforceGo_checked_mono (idA : List (String × LiveActor)) (pp : Option Pos)
    (fm : List (String × String)) :
    ∀ (tr : Tracked) (st : ModState) (q : List PendingFenceOpen) {x : String},
      x ∈ st.CheckedLocations →
      x ∈ (enforceGo idA pp fm st q tr).ms.CheckedLocations := by
  intro tr
  induction tr with
  | nil => intro st q x h; exact h
  | cons e rest ih =>
    intro st q x h
    obtain ⟨id, tt⟩ := e
    simp only [enforceGo]
    cases hf : assocFind id idA with
    | none => exact ih _ _ h
    | some actor => exact ih _ _ (enforceEntry_checked_mono st fm q pp actor id tt h)

theorem enforceGo_report (idA : List (String × LiveActor)) (pp : Option Pos)
    (fm : List (String × String)) :
    ∀ (tr : Tracked) (st : ModState) (q : List PendingFenceOpen) (v : Int),
      Effect.locationCheck v ∈ (enforceGo idA pp fm st q tr).effects →
      0 ≤ v ∧ ∃ id2, v = GetLocationId id2
        ∧ id2 ∈ (enforceGo idA pp fm st q tr).ms.CheckedLocations := by
  intro tr
  induction tr with
  | nil => intro st q v h; simp [enforceGo] at h
  | cons e rest ih =>
    intro st q v h
    obtain ⟨id, tt⟩ := e
    simp only [enforceGo] at h ⊢
    cases hf : assocFind id idA with
    | none => rw [hf] at h; exact ih _ _ v h
    | some actor =>
      rw [hf] at h
      have h2 : Effect.locationCheck v ∈
          (enforceEntry st fm q pp actor id tt).effects
            ++ (enforceGo idA pp fm (enforceEntry st fm q pp actor id tt).ms
                  (enforceEntry st fm q pp actor id tt).queue rest).effects := h
      rw [List.mem_append] at h2
      rcases h2 with h1 | h1
      · obtain ⟨hge, hveq, _, hmem⟩ := enforceEntry_report st fm q pp actor id tt v h1
        exact ⟨hge, id, hveq, enforceGo_checked_mono idA pp fm rest _ _ hmem⟩
      · exact ih _ _ v h1

theorem enforceGo_no_report_of_checked (idA : List (String × LiveActor)) (pp : Option Pos)
    (fm : List (String × String)) :
    ∀ (tr : Tracked) (st : ModState) (q : List PendingFenceOpen) {x : String},
      x ∈ st.CheckedLocations →
      Effect.locationCheck (GetLocationId x) ∉ (enforceGo idA pp fm st q tr).effects := by
  intro tr
  induction tr with
  | nil => intro st q x _; simp [enforceGo]
  | cons e rest ih =>
    intro st q x hx
    obtain ⟨id, tt⟩ := e
    simp only [enforceGo]
    cases hf : assocFind id idA with
    | none => exact ih _ _ hx
    | some actor =>
      intro hmem
      have h2 : Effect.locationCheck (GetLocationId x) ∈
          (enforceEntry st fm q pp actor id tt).effects
            ++ (enforceGo idA pp fm (enforceEntry st fm q pp actor id tt).ms
                  (enforceEntry st fm q pp actor id tt).queue rest).effects := hmem
      rw [List.mem_append] at h2
      rcases h2 with h1 | h1
      · obtain ⟨hge, hveq, hcoll, _⟩ := enforceEntry_report st fm q pp actor id tt _ h1
        have hxid : x = id := GetLocationId_inj hge hveq
        rw [← hxid] at hcoll
        exact (shouldBeCollectable_iff st x).mp hcoll hx
      · exact ih _ _ (enforceEntry_checked_mono st fm q pp actor id tt hx) h1

theorem EnforceVisibility_checked_mono (st : ModState) (tr : Tracked)
    (fm : List (String × String)) (q : List PendingFenceOpen)
    (items : List LiveActor) (pp : Option Pos) {x : String}
    (h : x ∈ st.CheckedLocations) :
    x ∈ (EnforceVisibility st tr fm q items pp).ms.CheckedLocations := by
  unfold EnforceVisibility
  split
  · exact h
  · exact enforceGo_checked_mono _ pp fm tr st q h

theorem EnforceVisibility_report (st : ModState) (tr : Tracked)
    (fm : List (String × String)) (q : List PendingFenceOpen)
    (items : List LiveActor) (pp : Option Pos) (v : Int)
    (h : Effect.locationCheck v ∈ (EnforceVisibility st tr fm q items pp).effects) :
    0 ≤ v ∧ ∃ id2, v = GetLocationId id2
      ∧ id2 ∈ (EnforceVisibility st tr fm q items pp).ms.CheckedLocations := by
  unfold EnforceVisibility at h ⊢
  by_cases htr : tr = []
  · rw [if_pos htr] at h; simp at h
  · rw [if_neg htr] at h ⊢
    exact enforceGo_report _ pp fm tr st q v h

theorem EnforceVisibility_no_report_of_checked (st : ModState) (tr : Tracked)
    (fm : List (String × String)) (q : List PendingFenceOpen)
    (items : List LiveActor) (pp : Option Pos) {x : String}
    (hx : x ∈ st.CheckedLocations) :
    Effect.locationCheck (GetLocationId x) ∉ (EnforceVisibility st tr fm q items pp).effects := by
  unfold EnforceVisibility
  split
  · simp
  · exact enforceGo_no_report_of_checked _ pp fm tr st q hx

theorem runPass_checked_mono (s : SysState) (p : Pass) {x : String}
    (h : x ∈ s.ms.CheckedLocations) :
    x ∈ (runPass s p).1.ms.CheckedLocations := by
  cases p with
  | enforce items pp => exact EnforceVisibility_checked_mono s.ms s.tracked _ _ items pp h
  | refresh items => exact h
  | scan items fm => exact h

theorem runPass_report (s : SysState) (p : Pass) (v : Int)
    (h : Effect.locationCheck v ∈ (runPass s p).2) :
    0 ≤ v ∧ ∃ id2, v = GetLocationId id2
      ∧ id2 ∈ (runPass s p).1.ms.CheckedLocations := by
  cases p with
  | enforce items pp => exact EnforceVisibility_report s.ms s.tracked _ _ items pp v h
  | refresh items => exact absurd h (RefreshVisibility_no_locationCheck s.ms items s.tracked v)
  | scan items fm => exact absurd h (ScanLevel_no_locationCheck s.ms items v)

theorem runPass_no_report_of_checked (s : SysState) (p : Pass) {x : String}
    (hx : x ∈ s.ms.CheckedLocations) :
    Effect.locationCheck (GetLocationId x) ∉ (runPass s p).2 := by
  cases p with
  | enforce items pp =>
    exact EnforceVisibility_no_report_of_checked s.ms s.tracked _ _ items pp hx
  | refresh items => exact RefreshVisibility_no_locationCheck s.ms items s.tracked _
  | scan items fm => exact ScanLevel_no_locationCheck s.ms items _

theorem runPasses_no_report_of_checked :
    ∀ (σ : List Pass) (s : SysState) {x : String},
      x ∈ s.ms.CheckedLocations →
      Effect.locationCheck (GetLocationId x) ∉ (runPasses s σ).2 := by
  intro σ
  induction σ with
  | nil => intro s x _; simp [runPasses]
  | cons p rest ih =>
    intro s x hx
    simp only [runPasses, List.mem_append]
    intro hmem
    rcases hmem with h1 | h1
    · exact runPass_no_report_of_checked s p hx h1
    · exact ih _ (runPass_checked_mono s p hx) h1

/- ========================== claims C7 and C1 ============================= -/

/-- C7: proximity single-fire — if one pass produces the location-check
    report of an entity (which only a proximity pickup can do, setting its
    `Reported` flag and marking the location checked), then no pass in any
    subsequent sequence of enforcement, refresh or scan passes within the
    session produces another location-check report for that entity,
    regardless of player distance or how the refreshes rebuild the tracked
    set. -/
theorem claim7_proximity_single_fire :
    ∀ (s : SysState) (p0 : Pass) (σ : List Pass) (id : String),
      Effect.locationCheck (GetLocationId id) ∈ (runPass s p0).2 →
      Effect.locationCheck (GetLocationId id) ∉ (runPasses (runPass s p0).1 σ).2 := by
  intro s p0 σ id hrep
  obtain ⟨hge, id2, hveq, hmem⟩ := runPass_report s p0 _ hrep
  have hid : id = id2 := GetLocationId_inj hge hveq
  rw [← hid] at hmem
  exact runPasses_no_report_of_checked σ _ hmem

/-- C7 (witness): the player standing on the tracked, unreported DJ1 actor
    makes one enforcement pass fire its report; repeating the identical
    pass immediately afterwards produces no second report. -/
theorem claim7_proximity_single_fire_witness :
    Effect.locationCheck (GetLocationId "DJ1") ∈ (runPass dj1TrackingState dj1PickupPass).2
    ∧ Effect.locationCheck (GetLocationId "DJ1")
        ∉ (runPasses (runPass dj1TrackingState dj1PickupPass).1 [dj1PickupPass]).2 :=
  ⟨by decide,
   claim7_proximity_single_fire dj1TrackingState dj1PickupPass [dj1PickupPass] "DJ1"
     (by decide)⟩

theorem locationCheck_not_mem_map_openFence (l : List String) (v : Int) :
    Effect.locationCheck v ∉ l.map Effect.openFence := by
  intro h
  rcases List.mem_map.mp h with ⟨a, _, ha⟩
  exact absurd ha (by simp)

/-- C1 (counterexample): while `APSynced` is still false, the deferred
    tetromino scan pass of the very first post-cooldown tick already
    force-shows the tracked entity DJ1 — scan passes are not gated on the
    sync flag, so the claim that no enforcement or scan pass performs any
    visibility mutation while the flag is false fails at this concrete
    tick. -/
theorem claim1_counterexample :
    preSyncState.ms.APSynced = false
    ∧ Effect.setVisible "DJ1" ∈ (onUpdate preSyncState preSyncInput).2 :=
  ⟨rfl, by decide⟩

/-- C1 (amended): while `APSynced` is false the per-tick enforcement pass
    is never invoked, so no tick produces a location-check report (and no
    proximity pickup can fire); the scan and periodic refresh passes,
    however, do apply visibility mutations regardless of the sync flag. -/
theorem claim1_gating_no_report :
    ∀ (s : SysState) (inp : TickInput), s.ms.APSynced = false →
      ∀ v : Int, Effect.locationCheck v ∉ (onUpdate s inp).2 := by
  intro s inp hsync v
  simp only [onUpdate]
  by_cases hcool : 0 < s.ms.LevelTransitionCooldown
  · rw [if_pos hcool]; simp
  · rw [if_neg hcool]
    by_cases hscan : s.ms.NeedsTetrominoScan = true
    · rw [if_pos hscan]
      rw [if_neg (fun hc => by simp [hsync] at hc)]
      intro hmem
      simp only [List.mem_append] at hmem
      rcases hmem with ((h1 | h2) | h3) | h4
      · exact ScanLevel_no_locationCheck _ inp.scanItems v h1
      · exact absurd h2 (by simp)
      · revert h3
        split
        · exact RefreshVisibility_no_locationCheck _ inp.refreshItems _ v
        · simp
      · exact locationCheck_not_mem_map_openFence _ v h4
    · rw [if_neg hscan]
      rw [if_neg (fun hc => by simp [hsync] at hc)]
      intro hmem
      simp only [List.mem_append] at hmem
      rcases hmem with ((h1 | h2) | h3) | h4
      · exact absurd h1 (by simp)
      · exact absurd h2 (by simp)
      · revert h3
        split
        · exact RefreshVisibility_no_locationCheck _ inp.refreshItems _ v
        · simp
      · exact locationCheck_not_mem_map_openFence _ v h4

/-- C1 (witness for the amended claim): on the concrete pre-sync tick no
    location-check report for DJ1's location id is produced. -/
theorem claim1_gating_no_report_witness :
    preSyncState.ms.APSynced = false
    ∧ Effect.locationCheck 5505028 ∉ (onUpdate preSyncState preSyncInput).2 :=
  ⟨rfl, claim1_gating_no_report preSyncState preSyncInput rfl 5505028⟩

/- ======================= fence retry-queue lemmas ======================== -/

theorem fence_step_single (fk : Bool) (resolve : String → Bool) (t f : String)
    (a : Nat) (hres : resolve f = false) :
    ProcessPendingFenceOpens true fk resolve
        [{ tetId := t, fenceFullName := f, attempts := a }]
      = { fnCached := true,
          queue := if a + 1 < 10
            then [{ tetId := t, fenceFullName := f, attempts := a + 1 }] else [],
          attempted := [f], opened := [] } := by
  by_cases hlt : a + 1 < 10
  · simp [ProcessPendingFenceOpens, fenceLoop, hres, hlt]
  · simp [ProcessPendingFenceOpens, fenceLoop, hres, hlt]

theorem processIterN_nil (fk : Bool) (resolve : String → Bool) :
    ∀ (n : Nat) (c : Bool), processIterN fk resolve n c [] = (c, [], []) := by
  intro n
  induction n with
  | zero => intro c; rfl
  | succ k ih =>
    intro c
    have hstep : ProcessPendingFenceOpens c fk resolve []
        = { fnCached := c, queue := [], attempted := [], opened := [] } := rfl
    simp only [processIterN, hstep]
    rw [ih c]
    rfl

theorem processIterN_single (resolve : String → Bool) (t f : String)
    (hres : resolve f = false) :
    ∀ (n a : Nat), a < 10 →
      processIterN true resolve n true
          [{ tetId := t, fenceFullName := f, attempts := a }]
        = (true,
           if a + n < 10
             then [{ tetId := t, fenceFullName := f, attempts := a + n }] else [],
           List.replicate (min n (10 - a)) f) := by
  intro n
  induction n with
  | zero =>
    intro a ha
    simp only [processIterN]
    rw [if_pos (by omega)]
    simp
  | succ k ih =>
    intro a ha
    simp only [processIterN]
    rw [fence_step_single true resolve t f a hres]
    by_cases hlt : a + 1 < 10
    · simp only [if_pos hlt]
      rw [ih (a + 1) hlt]
      have hc1 : a + 1 + k = a + (k + 1) := by omega
      have hc2 : min (k + 1) (10 - a) = min k (10 - (a + 1)) + 1 := by omega
      rw [hc1, hc2, List.replicate_succ]
      rfl
    · have ha9 : a = 9 := by omega
      subst ha9
      simp only [if_neg hlt]
      rw [processIterN_nil]
      have hc3 : ¬ (9 + (k + 1) < 10) := by omega
      rw [if_neg hc3]
      have hc4 : min (k + 1) (10 - 9) = 1 := by omega
      rw [hc4]
      rfl

/- ============================== claim C8 ================================= -/

/-- C8: retry bound — a queued fence open whose target resolution never
    succeeds survives exactly 9 calls of `ProcessPendingFenceOpens` with
    its attempt counter equal to the number of calls, is attempted for the
    10th time on the 10th call and then permanently removed, for a total of
    exactly 10 resolution attempts; and `ProcessPendingFenceOpens` on an
    empty queue is a no-op that attempts no resolution and changes no
    state. -/
theorem claim8_retry_bound :
    ∀ (resolve : String → Bool) (t f : String), resolve f = false →
      (∀ n : Nat,
        processIterN true resolve n true
            [{ tetId := t, fenceFullName := f, attempts := 0 }]
          = (true,
             if n < 10
               then [{ tetId := t, fenceFullName := f, attempts := n }] else [],
             List.replicate (min n 10) f))
      ∧ (∀ (c fk : Bool) (r : String → Bool),
          ProcessPendingFenceOpens c fk r []
            = { fnCached := c, queue := [], attempted := [], opened := [] }) := by
  intro resolve t f hres
  constructor
  · intro n
    have h := processIterN_single resolve t f hres n 0 (by omega)
    simpa using h
  · intro c fk r
    rfl

/-- C8 (witness): a fence named F that never resolves is attempted exactly
    10 times over 12 scheduler calls and the queue ends empty. -/
theorem claim8_retry_bound_witness :
    ((fun _ : String => false) "F" = false)
    ∧ processIterN true (fun _ => false) 12 true
        [{ tetId := "DJ1", fenceFullName := "F", attempts := 0 }]
      = (true,
         if 12 < 10
           then [{ tetId := "DJ1", fenceFullName := "F", attempts := 12 }] else [],
         List.replicate (min 12 10) "F") :=
  ⟨rfl, (claim8_retry_bound (fun _ => false) "DJ1" "F" rfl).1 12⟩
